import Mathlib

/-!
Verification development for the `event-sandbox` repository.

Part 1 embeds the `turbostate` runtime (`src/turbostate/src/lib.rs`): the
`Flow` outcome type, the `Engine` contract, and the `Machine` dispatch
operation `fire`, whose `Slide` outcome re-dispatches recursively through
`infer_result`.  Since a `Slide` chain may be infinite, `fire` is embedded
with explicit fuel; a fuel-free big-step relation `FireRel` mirrors the
same recursive structure and is proved adequate for the fuel function.

Part 2 embeds the sample barrier-controller (`src/src/sloop.rs`), its
actuator interface (`src/src/laurent.rs`), and the driving test
(`src/src/tests/mod.rs`).
-/

namespace Turbostate

/-- `Flow` from `src/turbostate/src/lib.rs` (lines 24–34): the possible
outcomes of one state-transition step.  `T` is the state type, `E` the
error type, `B` the event type. -/
inductive Flow (T E B : Type) : Type where
  | Pass : Flow T E B
  | Transition : T → Flow T E B
  | Slide : T → B → Flow T E B
  | Failure : E → Flow T E B
deriving DecidableEq, Repr

/-- The `Engine` trait (`lib.rs` lines 53–84), shallowly embedded as a
record: the transition function `next` takes the current state (read-only),
the event (owned) and the shared context (mutable, so it is threaded:
the function returns the updated shared value alongside the `Flow`). -/
structure Engine (State Event Error Shared : Type) : Type where
  next : State → Event → Shared → Flow State Error Event × Shared

variable {State Event Error Shared : Type}

/-- A machine's stored data: the `Store`'s state cell and shared cell
(`lib.rs` lines 86–99).  Locking is sequentialized away: one dispatch is
one function application on this pair. -/
def MState (State Shared : Type) : Type := State × Shared

/-- `Machine::set_state` (`lib.rs` lines 153–156): overwrite the state
cell wholesale, leaving the shared cell untouched. -/
def set_state (ms : MState State Shared) (new_state : State) :
    MState State Shared :=
  (new_state, ms.2)

mutual

/-- `Machine::infer_result` (`lib.rs` lines 158–171), with explicit fuel
consumed only by the recursive `fire` call in the `Slide` arm:
`Pass` commits nothing, `Transition` commits the new state,
`Slide` commits the new state then re-fires the new event,
`Failure` returns the error with the state unchanged. -/
def infer_result (E : Engine State Event Error Shared) :
    Nat → MState State Shared → Flow State Error Event →
    Option (Except Error Unit × MState State Shared)
  | _, ms, Flow.Pass => some (Except.ok (), ms)
  | _, ms, Flow.Transition new_state =>
      some (Except.ok (), set_state ms new_state)
  | fuel, ms, Flow.Slide new_state event =>
      fire E fuel (set_state ms new_state) event
  | _, ms, Flow.Failure err => some (Except.error err, ms)

/-- `Machine::fire` (`lib.rs` lines 184–191): evaluate the engine's
transition function on the current state, the event and the shared
context (the shared update is committed as the function runs), then
interpret the resulting `Flow` via `infer_result`.  `none` means the
fuel ran out before the `Slide` chain ended. -/
def fire (E : Engine State Event Error Shared) :
    Nat → MState State Shared → Event →
    Option (Except Error Unit × MState State Shared)
  | 0, _, _ => none
  | fuel + 1, ms, event =>
      let p := E.next ms.1 event ms.2
      infer_result E fuel (ms.1, p.2) p.1

end

/-- Termination of a dispatch: the `Slide` chain that starts at this
machine data and event is finite.  The constructors mirror the four
arms of `infer_result`: any non-`Slide` outcome ends the chain, and a
`Slide` outcome continues it at the committed state and new event. -/
inductive Terminates (E : Engine State Event Error Shared) :
    MState State Shared → Event → Prop where
  | pass {s sh sh' ev} :
      E.next s ev sh = (Flow.Pass, sh') → Terminates E (s, sh) ev
  | transition {s sh sh' ev t} :
      E.next s ev sh = (Flow.Transition t, sh') → Terminates E (s, sh) ev
  | slide {s sh sh' ev t ev2} :
      E.next s ev sh = (Flow.Slide t ev2, sh') →
      Terminates E (t, sh') ev2 → Terminates E (s, sh) ev
  | failure {s sh sh' ev err} :
      E.next s ev sh = (Flow.Failure err, sh') → Terminates E (s, sh) ev

/-- Call-stack depth of a dispatch: the number of nested `fire`
invocations the source's recursive structure performs
(`fire` → `infer_result` → `fire` on each `Slide`), under the given
fuel.  A dispatch whose outcome is not a `Slide` uses one `fire` frame;
a `Slide` outcome adds one frame on top of the depth of the inner
dispatch. -/
def fireDepth (E : Engine State Event Error Shared) :
    Nat → MState State Shared → Event → Option Nat
  | 0, _, _ => none
  | fuel + 1, ms, event =>
      let p := E.next ms.1 event ms.2
      match p.1 with
      | Flow.Slide new_state event2 =>
          (fireDepth E fuel (new_state, p.2) event2).map (· + 1)
      | _ => some 1

/-- The `FromResidual<Result<T, E>>` impl for `Flow` (`lib.rs` lines
36–47): the `?` operator on a failed sub-operation terminates the
transition function with `Failure(err.into())`.  The residual of a Rust
`Result` carries `Infallible` in its success position, which the source
marks `unreachable!`; it is embedded as `Empty`, making that arm
genuinely unreachable. -/
def Flow.fromResidual {Er R X B : Type} (into : Er → R) :
    Except Er Empty → Flow X R B
  | Except.error err => Flow.Failure (into err)
  | Except.ok x => x.elim

/-- A concrete engine used to exercise the dispatch theorems on closed
inputs: state, event, error and shared context are all `Nat`; the event
selects which `Flow` outcome the transition function produces, and the
shared context is incremented on every step. -/
def demoE : Engine Nat Nat Nat Nat where
  next s ev sh :=
    match ev with
    | 0 => (Flow.Pass, sh + 1)
    | 1 => (Flow.Transition (s + 10), sh + 1)
    | 2 => (Flow.Slide 5 0, sh + 1)
    | _ => (Flow.Failure 42, sh + 1)

/-- A concrete engine with uninhabited error type: it can only `Pass`. -/
def emptyE : Engine Nat Nat Empty Nat where
  next _ _ sh := (Flow.Pass, sh)

/-- A concrete engine whose transition function fails through the
residual-propagation helper, as a transition function using the `?`
operator on an always-failing sub-operation would. -/
def demoResE : Engine Nat Nat Nat Nat where
  next _ _ sh := (Flow.fromResidual (· + 100) (Except.error 1), sh)

/-- A concrete engine producing a `Slide` chain of length equal to the
starting state: state `k + 1` slides to state `k`, and state `0`
passes.  Its error type is uninhabited. -/
def chainE : Engine Nat Unit Empty Unit where
  next s _ _ :=
    match s with
    | 0 => (Flow.Pass, ())
    | k + 1 => (Flow.Slide k (), ())

/-- Fuel-free big-step dispatch relation, mirroring the recursive
structure of `fire`/`infer_result` exactly: `FireRel E ms ev out` holds
when `fire` on machine data `ms` and event `ev` returns result `out.1`
leaving machine data `out.2`. -/
inductive FireRel (E : Engine State Event Error Shared) :
    MState State Shared → Event →
    Except Error Unit × MState State Shared → Prop where
  | pass {s sh sh' ev} :
      E.next s ev sh = (Flow.Pass, sh') →
      FireRel E (s, sh) ev (Except.ok (), (s, sh'))
  | transition {s sh sh' ev t} :
      E.next s ev sh = (Flow.Transition t, sh') →
      FireRel E (s, sh) ev (Except.ok (), (t, sh'))
  | slide {s sh sh' ev t ev2 out} :
      E.next s ev sh = (Flow.Slide t ev2, sh') →
      FireRel E (t, sh') ev2 out →
      FireRel E (s, sh) ev out
  | failure {s sh sh' ev err} :
      E.next s ev sh = (Flow.Failure err, sh') →
      FireRel E (s, sh) ev (Except.error err, (s, sh'))

end Turbostate

namespace Sandbox

/-- The barrier-controller state enum from `src/src/sloop.rs` (lines
8–17); `Idle` is the `#[default]` variant, and `Finalizing` carries the
flag recording whether the second radar was occupied when line 3 went
high. -/
inductive State : Type where
  | Idle : State
  | Entry : State
  | Finalizing : Bool → State
  | WaitRelease : State
deriving DecidableEq, Repr

/-- `InLoop` (`sloop.rs` lines 20–25): the current state, the shared
plate recognizer (modelled as its list of accumulated plate numbers;
`flush` empties it), and the 7-element array of radar-line levels
(modelled as a length-7 list). -/
structure InLoop : Type where
  state : State
  recognizer : List String
  lanes : List Bool
deriving DecidableEq, Repr

/-- `InLoop::default()`: `Idle` state, empty recognizer, all lanes low. -/
def InLoop.mkDefault : InLoop :=
  { state := State.Idle, recognizer := [], lanes := List.replicate 7 false }

/-- `LaurentCtl` (`src/src/laurent.rs` lines 4–16) only logs relay
commands; it is modelled as the (ordered) trace of `relay(r, high)`
calls issued so far. -/
abbrev LaurentCtl : Type := List (Nat × Bool)

/-- `LaurentCtl::relay` appends one relay command to the trace. -/
def relay (ctl : LaurentCtl) (r : Nat) (high : Bool) : LaurentCtl :=
  ctl ++ [(r, high)]

/-- The `for _ in 0..3 { ctl.relay(r, true); ctl.relay(r, false) }`
pulse loops from `sloop.rs` (the open signal uses relay 1, the close
signal relay 2). -/
def pulse3 (ctl : LaurentCtl) (r : Nat) : LaurentCtl :=
  (List.range 3).foldl (fun c _ => relay (relay c r true) r false) ctl

/-- `InLoop::ein` (`sloop.rs` lines 41–117).  The first statement
`self.lanes[line as usize] = high` indexes the 7-element `lanes` array,
so `line ≥ 7` panics before any state matching; this is embedded as
`none`.  Otherwise the lane is recorded and the `(state, line, high)`
match runs: `(Idle,1,true)` flushes the recognizer, opens the barrier
and enters `Entry`; `(Entry,3,true)` enters `Finalizing` holding the
level of lane 2; `(Finalizing true,2,false)` drops the hold;
`(Finalizing false,3,false)` resets state and lanes to their defaults
and then — testing `lanes[2]` after the reset — either waits for the
second radar or closes the barrier; `(WaitRelease,2,false)` closes the
barrier; anything else is ignored. -/
def ein (m : InLoop) (ctl : LaurentCtl) (line : Nat) (high : Bool) :
    Option (InLoop × LaurentCtl) :=
  if _hline : line < 7 then
    let lanes := m.lanes.set line high
    match m.state, line, high with
    | State.Idle, 1, true =>
        some ({ state := State.Entry, recognizer := [], lanes := lanes },
              pulse3 ctl 1)
    | State.Entry, 3, true =>
        some ({ m with state := State.Finalizing (lanes.getD 2 false),
                       lanes := lanes }, ctl)
    | State.Finalizing true, 2, false =>
        some ({ m with state := State.Finalizing false, lanes := lanes }, ctl)
    | State.Finalizing false, 3, false =>
        let lanes2 : List Bool := List.replicate 7 false
        if lanes2.getD 2 false then
          some ({ m with state := State.WaitRelease, lanes := lanes2 }, ctl)
        else
          some ({ m with state := State.Idle, lanes := lanes2 },
                pulse3 ctl 2)
    | State.WaitRelease, 2, false =>
        some ({ m with state := State.Idle, lanes := lanes }, pulse3 ctl 2)
    | _, _, _ => some ({ m with lanes := lanes }, ctl)
  else
    none

/-- Run a sequence of `(line, high)` signal events through `ein`,
threading the machine and the relay trace; `none` if any call panics. -/
def runFrom (m : InLoop) (ctl : LaurentCtl) :
    List (Nat × Bool) → Option (InLoop × LaurentCtl)
  | [] => some (m, ctl)
  | (line, high) :: rest =>
      match ein m ctl line high with
      | none => none
      | some (m', ctl') => runFrom m' ctl' rest

/-- The state after each event of a run (the observed trajectory). -/
def traceStates (m : InLoop) (ctl : LaurentCtl) :
    List (Nat × Bool) → Option (List State)
  | [] => some []
  | (line, high) :: rest =>
      match ein m ctl line high with
      | none => none
      | some (m', ctl') =>
          (traceStates m' ctl' rest).map (fun tl => m'.state :: tl)

/-- `Laurent` (`laurent.rs` lines 24–49), specialised to the `InLoop`
subscriber the test installs: the subscriber plus the relay trace of
its `LaurentCtl`. -/
structure Laurent : Type where
  sub : InLoop
  ctl : LaurentCtl

/-- `Laurent::emit_ein` (`laurent.rs` lines 40–48): logs and forwards
the signal to the subscriber's `ein` unchecked, with any panic
propagating. -/
def Laurent.emit_ein (l : Laurent) (line : Nat) (high : Bool) :
    Option Laurent :=
  (ein l.sub l.ctl line high).map (fun p => { sub := p.1, ctl := p.2 })

/-- The `InLoop` built by the test `in_loop_perfect_conditions`
(`src/src/tests/mod.rs` lines 6–20): default state and lanes, two
plates registered in the recognizer. -/
def testLoop : InLoop :=
  { state := State.Idle, recognizer := ["X777XX77", "A121AA12"],
    lanes := List.replicate 7 false }

/-- The event sequence fired by the test: Ein(1,true), Ein(2,true),
Ein(1,false), Ein(3,true), Ein(2,false), Ein(3,false). -/
def testEvents : List (Nat × Bool) :=
  [(1, true), (2, true), (1, false), (3, true), (2, false), (3, false)]

end Sandbox

namespace Turbostate

variable {State Event Error Shared : Type}

/-- Fuel monotonicity: a `fire` run that succeeds with some fuel succeeds
identically with more fuel. -/
theorem fire_mono (E : Engine State Event Error Shared) :
    ∀ (n m : Nat) (ms : MState State Shared) (ev : Event) out,
      n ≤ m → fire E n ms ev = some out → fire E m ms ev = some out := by
  intro n
  induction n with
  | zero => intro m ms ev out _ h; simp [fire] at h
  | succ k ih =>
    intro m ms ev out hle h
    obtain ⟨m', rfl⟩ : ∃ m', m = m' + 1 :=
      ⟨m - 1, by omega⟩
    have hk : k ≤ m' := Nat.succ_le_succ_iff.mp hle
    rw [fire] at h ⊢
    revert h
    cases hnext : E.next ms.1 ev ms.2 with
    | mk flow sh' =>
      cases flow with
      | Pass => simp [infer_result]
      | Transition t => simp [infer_result]
      | Slide t ev2 =>
        simp only [infer_result]
        exact ih m' (set_state (ms.1, sh') t) ev2 out hk
      | Failure err => simp [infer_result]

/-- Adequacy: the big-step relation holds exactly when `fire` returns
that outcome for some amount of fuel. -/
theorem fireRel_iff_fire (E : Engine State Event Error Shared)
    (ms : MState State Shared) (ev : Event)
    (out : Except Error Unit × MState State Shared) :
    FireRel E ms ev out ↔ ∃ n, fire E n ms ev = some out := by
  constructor
  · intro h
    induction h with
    | pass hnext =>
      exact ⟨1, by rw [fire]; rw [hnext]; simp [infer_result]⟩
    | transition hnext =>
      exact ⟨1, by rw [fire]; rw [hnext]; simp [infer_result, set_state]⟩
    | slide hnext _ ih =>
      obtain ⟨n, hn⟩ := ih
      refine ⟨n + 1, ?_⟩
      rw [fire]
      rw [hnext]
      simpa [infer_result, set_state] using hn
    | failure hnext =>
      exact ⟨1, by rw [fire]; rw [hnext]; simp [infer_result]⟩
  · rintro ⟨n, hn⟩
    induction n generalizing ms ev with
    | zero => simp [fire] at hn
    | succ k ih =>
      obtain ⟨s, sh⟩ := ms
      rw [fire] at hn
      revert hn
      cases hnext : E.next s ev sh with
      | mk flow sh' =>
        cases flow with
        | Pass =>
          intro hn
          simp only [infer_result, Option.some.injEq] at hn
          exact hn ▸ FireRel.pass hnext
        | Transition t =>
          intro hn
          simp only [infer_result, Option.some.injEq] at hn
          exact hn ▸ FireRel.transition hnext
        | Slide t ev2 =>
          intro hn
          simp only [infer_result] at hn
          exact FireRel.slide hnext (ih _ _ hn)
        | Failure err =>
          intro hn
          simp only [infer_result, Option.some.injEq] at hn
          exact hn ▸ FireRel.failure hnext

/-- Any big-step dispatch that produces an outcome has a finite `Slide`
chain. -/
theorem fireRel_terminates (E : Engine State Event Error Shared)
    {ms : MState State Shared} {ev : Event}
    {out : Except Error Unit × MState State Shared}
    (h : FireRel E ms ev out) : Terminates E ms ev := by
  induction h with
  | pass hnext => exact Terminates.pass hnext
  | transition hnext => exact Terminates.transition hnext
  | slide hnext _ ih => exact Terminates.slide hnext ih
  | failure hnext => exact Terminates.failure hnext

/-- A finite `Slide` chain yields a big-step outcome. -/
theorem terminates_fireRel (E : Engine State Event Error Shared)
    {ms : MState State Shared} {ev : Event}
    (h : Terminates E ms ev) : ∃ out, FireRel E ms ev out := by
  induction h with
  | pass hnext => exact ⟨_, FireRel.pass hnext⟩
  | transition hnext => exact ⟨_, FireRel.transition hnext⟩
  | slide hnext _ ih =>
    obtain ⟨out, hout⟩ := ih
    exact ⟨out, FireRel.slide hnext hout⟩
  | failure hnext => exact ⟨_, FireRel.failure hnext⟩

/-- The dispatch depth of `chainE` from state `n` is exactly `n + 1`:
the `Slide` chain of length `n` performs `n + 1` nested `fire` calls. -/
theorem fireDepth_chainE :
    ∀ n : Nat, fireDepth chainE (n + 1) (n, ()) () = some (n + 1) := by
  intro n
  induction n with
  | zero =>
    rw [fireDepth]
    rfl
  | succ k ih =>
    rw [fireDepth]
    show (Option.map (· + 1) (fireDepth chainE (k + 1) (k, ()) ())) =
      some (k + 1 + 1)
    rw [ih]
    rfl

/-- Claim C1: when the transition function returns `Transition(s)`,
`fire` commits the state to exactly `s` (replacing it wholesale, shared
left as the transition function produced it) and returns success, for
every prior state. -/
theorem fire_transition_commits
    (E : Engine State Event Error Shared) (s : State) (sh : Shared)
    (ev : Event) (t : State) (sh' : Shared) (n : Nat)
    (h : E.next s ev sh = (Flow.Transition t, sh')) :
    fire E (n + 1) (s, sh) ev = some (Except.ok (), (t, sh')) := by
  rw [fire]
  rw [h]
  simp [infer_result, set_state]

/-- Claim C1 witness: the demo engine's event `1` transitions state `0`
to state `10`. -/
theorem fire_transition_commits_witness :
    fire demoE 1 (0, 0) 1 = some (Except.ok (), (10, 1)) :=
  fire_transition_commits demoE 0 0 1 10 1 0 rfl

/-- Claim C2: when the transition function returns `Slide(t, ev2)`,
`fire` (absent concurrent interleaving, which the sequential embedding
renders) is observationally equivalent to committing `t` and then
immediately firing `ev2` against the committed machine data: with any
fuel, the outer `fire` computes exactly what `fire` on `(t, sh')` and
`ev2` computes, and fuel-free the two dispatches have the same big-step
outcomes (same result, same final state and shared context). -/
theorem fire_slide_equiv
    (E : Engine State Event Error Shared) (s t : State) (sh sh' : Shared)
    (ev ev2 : Event)
    (h : E.next s ev sh = (Flow.Slide t ev2, sh')) :
    (∀ n, fire E (n + 1) (s, sh) ev = fire E n (t, sh') ev2) ∧
    (∀ out, FireRel E (s, sh) ev out ↔ FireRel E (t, sh') ev2 out) := by
  constructor
  · intro n
    rw [fire]
    rw [h]
    simp [infer_result, set_state]
  · intro out
    constructor
    · intro hrel
      cases hrel with
      | pass h' => rw [h] at h'; simp at h'
      | transition h' => rw [h] at h'; simp at h'
      | slide h' hrest =>
        rw [h] at h'
        simp only [Prod.mk.injEq, Flow.Slide.injEq] at h'
        obtain ⟨⟨rfl, rfl⟩, rfl⟩ := h'
        exact hrest
      | failure h' => rw [h] at h'; simp at h'
    · intro hrel
      exact FireRel.slide h hrel

/-- Claim C2 witness: the demo engine's event `2` slides from state `0`
to state `5` with follow-up event `0`. -/
theorem fire_slide_equiv_witness :
    fire demoE 2 (0, 0) 2 = fire demoE 1 (5, 1) 0 :=
  (fire_slide_equiv demoE 0 5 0 1 2 0 rfl).1 1

/-- Claim C3: when the transition function returns `Failure(err)`,
`fire` returns exactly that error value (no retry, no conversion) and
the machine's state is left unchanged. -/
theorem fire_failure_verbatim
    (E : Engine State Event Error Shared) (s : State) (sh : Shared)
    (ev : Event) (err : Error) (sh' : Shared) (n : Nat)
    (h : E.next s ev sh = (Flow.Failure err, sh')) :
    fire E (n + 1) (s, sh) ev = some (Except.error err, (s, sh')) := by
  rw [fire]
  rw [h]
  simp [infer_result]

/-- Claim C3 witness: the demo engine's event `3` fails with error `42`,
leaving the state at `0`. -/
theorem fire_failure_verbatim_witness :
    fire demoE 1 (0, 0) 3 = some (Except.error 42, (0, 1)) :=
  fire_failure_verbatim demoE 0 0 3 42 1 0 rfl

/-- Claim C4: when the transition function returns `Pass`, `fire`
returns success and commits nothing: the state is exactly the prior
state and the shared context is exactly what the transition function
itself produced. -/
theorem fire_pass_noop
    (E : Engine State Event Error Shared) (s : State) (sh : Shared)
    (ev : Event) (sh' : Shared) (n : Nat)
    (h : E.next s ev sh = (Flow.Pass, sh')) :
    fire E (n + 1) (s, sh) ev = some (Except.ok (), (s, sh')) := by
  rw [fire]
  rw [h]
  simp [infer_result]

/-- Claim C4 witness: the demo engine's event `0` passes, leaving the
state at `0`. -/
theorem fire_pass_noop_witness :
    fire demoE 1 (0, 0) 0 = some (Except.ok (), (0, 1)) :=
  fire_pass_noop demoE 0 0 0 1 0 rfl

/-- Claim C5 counterexample: the dispatch nesting depth of `fire` (the
number of nested `fire` invocations performed by the source's recursive
`fire` → `infer_result` → `fire` structure, which is what the call
stack holds) is not bounded over `Slide` chains: for every candidate
bound `B`, the chain engine started at state `B + 1` uses depth
`B + 2 > B`.  So stack growth is not bounded on long `Slide` chains. -/
theorem fire_slide_depth_unbounded :
    ¬ ∃ B : Nat, ∀ n d : Nat,
        fireDepth chainE (n + 1) (n, ()) () = some d → d ≤ B := by
  rintro ⟨B, hB⟩
  have h := hB (B + 1) (B + 2) (fireDepth_chainE (B + 1))
  omega

/-- Claim C5 (amended): same-call re-dispatch of `Slide` outcomes is
implemented as call-stack recursion (`infer_result`'s `Slide` arm calls
`fire` again), so the dispatch nesting depth grows linearly with the
length of the `Slide` chain; the runtime enforces no depth bound on
`Slide` chains, and `fire` produces an outcome (under some fuel)
exactly when the engine's `Slide` chain from that point is finite. -/
theorem fire_recursive_terminates_iff :
    (∀ (State Event Error Shared : Type)
       (E : Engine State Event Error Shared)
       (ms : MState State Shared) (ev : Event),
       (∃ n out, fire E n ms ev = some out) ↔ Terminates E ms ev) ∧
    (∀ n : Nat, fireDepth chainE (n + 1) (n, ()) () = some (n + 1)) := by
  constructor
  · intro State Event Error Shared E ms ev
    constructor
    · rintro ⟨n, out, hn⟩
      exact fireRel_terminates E ((fireRel_iff_fire E ms ev out).mpr ⟨n, hn⟩)
    · intro ht
      obtain ⟨out, hrel⟩ := terminates_fireRel E ht
      obtain ⟨n, hn⟩ := (fireRel_iff_fire E ms ev out).mp hrel
      exact ⟨n, out, hn⟩
  · exact fireDepth_chainE

/-- Claim C6: for an engine whose error type is uninhabited, every
outcome `fire` produces is success — the error branch of the result is
unreachable. -/
theorem fire_uninhabited_error_ok
    (State Event Shared : Type) (E : Engine State Event Empty Shared)
    (n : Nat) (ms : MState State Shared) (ev : Event)
    (r : Except Empty Unit) (ms' : MState State Shared)
    (h : fire E n ms ev = some (r, ms')) : r = Except.ok () := by
  cases r with
  | ok u => cases u; rfl
  | error e => exact e.elim

/-- Claim C6 witness: the `Empty`-error demo engine succeeds on a
concrete dispatch. -/
theorem fire_uninhabited_error_ok_witness :
    (Except.ok () : Except Empty Unit) = Except.ok () :=
  fire_uninhabited_error_ok Nat Nat Nat emptyE 1 (0, 0) 0
    (Except.ok ()) (0, 0)
    (by rw [fire]; simp [infer_result, emptyE])

/-- Claim C7: the residual-propagation impl turns a failed sub-operation
result `Err(e)` into exactly `Flow::Failure` of the converted error, and
a transition function ending through it is observationally identical to
one explicitly returning that `Failure`: dispatching the produced flow
makes `fire` surface the converted error with the state unchanged. -/
theorem flow_fromResidual_failure
    (Er R : Type) (into : Er → R) (err : Er) :
    (∀ (X B : Type),
      Flow.fromResidual into (Except.error err) =
        (Flow.Failure (into err) : Flow X R B)) ∧
    (∀ (X Ev Sh : Type) (E : Engine X Ev R Sh) (s : X) (sh sh' : Sh)
       (ev : Ev) (n : Nat),
      E.next s ev sh = (Flow.fromResidual into (Except.error err), sh') →
      fire E (n + 1) (s, sh) ev =
        some (Except.error (into err), (s, sh'))) := by
  constructor
  · intro X B
    rfl
  · intro X Ev Sh E s sh sh' ev n h
    rw [fire]
    rw [h]
    simp [infer_result, Flow.fromResidual]

/-- Claim C7 witness: the demo engine failing through the residual
helper surfaces the converted error `1 + 100 = 101`. -/
theorem flow_fromResidual_failure_witness :
    fire demoResE 1 (0, 0) 0 = some (Except.error 101, (0, 0)) :=
  (flow_fromResidual_failure Nat Nat (fun k => k + 100) 1).2
    Nat Nat Nat demoResE 0 0 0 0 0 rfl

end Turbostate

namespace Sandbox

/-- A signal on a line at index 7 or beyond panics (`ein` indexes the
7-element `lanes` array before matching), embedded as `none`. -/
theorem ein_none_of_ge (m : InLoop) (ctl : LaurentCtl) (line : Nat)
    (high : Bool) (h : ¬ line < 7) : ein m ctl line high = none := by
  simp [ein, h]

/-- A signal on a line below index 7 never panics: every match arm of
`ein` produces a machine and a relay trace. -/
theorem ein_isSome_of_lt (m : InLoop) (ctl : LaurentCtl) (line : Nat)
    (high : Bool) (h : line < 7) : (ein m ctl line high).isSome := by
  rcases m with ⟨st, rec, lanes⟩
  interval_cases line <;>
    rcases st with _ | _ | (_ | _) | _ <;>
    cases high <;>
    simp [ein]

/-- One `ein` step never enters `WaitRelease`: the only arm assigning
it tests `lanes[2]` right after resetting the lanes to all-false, so it
always takes the close-barrier path instead. -/
theorem ein_not_waitRelease (m : InLoop) (ctl : LaurentCtl) (line : Nat)
    (high : Bool) (out : InLoop × LaurentCtl)
    (h : ein m ctl line high = some out)
    (hm : m.state ≠ State.WaitRelease) :
    out.1.state ≠ State.WaitRelease := by
  rcases m with ⟨st, rec, lanes⟩
  by_cases hline : line < 7
  · interval_cases line <;>
      rcases st with _ | _ | (_ | _) | _ <;>
      cases high <;>
      simp_all [ein] <;>
      (subst h; simp)
  · rw [ein_none_of_ge _ _ _ _ hline] at h
    exact absurd h (by simp)

/-- Running any in-range event sequence from a machine outside
`WaitRelease` succeeds and stays outside `WaitRelease`. -/
theorem runFrom_not_waitRelease :
    ∀ (evs : List (Nat × Bool)) (m : InLoop) (ctl : LaurentCtl),
      m.state ≠ State.WaitRelease → (∀ p ∈ evs, p.1 < 7) →
      (runFrom m ctl evs).isSome ∧
      ∀ m' ctl', runFrom m ctl evs = some (m', ctl') →
        m'.state ≠ State.WaitRelease := by
  intro evs
  induction evs with
  | nil =>
    intro m ctl hm _
    refine ⟨by simp [runFrom], ?_⟩
    intro m' ctl' h
    simp only [runFrom, Option.some.injEq, Prod.mk.injEq] at h
    obtain ⟨rfl, rfl⟩ := h
    exact hm
  | cons p rest ih =>
    intro m ctl hm hlt
    obtain ⟨line, high⟩ := p
    have hl : line < 7 := hlt (line, high) (by simp)
    have hsome := ein_isSome_of_lt m ctl line high hl
    obtain ⟨⟨m1, ctl1⟩, h1⟩ := Option.isSome_iff_exists.mp hsome
    have hm1 : m1.state ≠ State.WaitRelease :=
      ein_not_waitRelease m ctl line high (m1, ctl1) h1 hm
    have hrest : ∀ q ∈ rest, q.1 < 7 := fun q hq => hlt q (by simp [hq])
    have hih := ih m1 ctl1 hm1 hrest
    constructor
    · simp only [runFrom, h1]
      exact hih.1
    · intro m' ctl' h
      simp only [runFrom, h1] at h
      exact hih.2 m' ctl' h

/-- Claim C8: from the test's machine (state `Idle`, all lanes low, two
plates registered), firing Ein(1,true), Ein(2,true), Ein(1,false),
Ein(3,true), Ein(2,false), Ein(3,false) follows the per-event state
trajectory Entry, Entry, Entry, Finalizing(hold), Finalizing(no hold),
Idle — i.e. Idle→Entry→Finalizing→Idle — and the run succeeds (no
panic, and the interface has no failure channel) with the relay trace
being exactly the open-barrier pulses followed by the close-barrier
pulses and the final state `Idle`. -/
theorem in_loop_perfect_conditions :
    traceStates testLoop [] testEvents =
      some [State.Entry, State.Entry, State.Entry, State.Finalizing true,
            State.Finalizing false, State.Idle] ∧
    runFrom testLoop [] testEvents =
      some ({ state := State.Idle, recognizer := [],
              lanes := List.replicate 7 false },
            pulse3 [] 1 ++ pulse3 [] 2) := by
  constructor
  · decide
  · decide

/-- Claim C9: starting from the default-constructed `InLoop`, no
sequence of in-range `ein` calls ever reaches `WaitRelease` (every such
run succeeds and ends outside `WaitRelease`; since all sequences are
covered, every intermediate machine is also covered as the end of a
prefix); moreover from any machine in state `Finalizing false`, the
`(3, low)` event always takes the close-barrier path: the lanes are
reset before `lanes[2]` is tested, so the result is `Idle` with the
close pulses appended — the `WaitRelease` arm of that branch is dead. -/
theorem inLoop_never_waitRelease :
    (∀ evs : List (Nat × Bool), (∀ p ∈ evs, p.1 < 7) →
      (runFrom InLoop.mkDefault [] evs).isSome ∧
      ∀ m' ctl', runFrom InLoop.mkDefault [] evs = some (m', ctl') →
        m'.state ≠ State.WaitRelease) ∧
    (∀ (m : InLoop) (ctl : LaurentCtl),
      m.state = State.Finalizing false →
      ein m ctl 3 false =
        some ({ state := State.Idle, recognizer := m.recognizer,
                lanes := List.replicate 7 false }, pulse3 ctl 2)) := by
  constructor
  · intro evs hlt
    exact runFrom_not_waitRelease evs InLoop.mkDefault []
      (by simp [InLoop.mkDefault]) hlt
  · intro m ctl hstate
    rcases m with ⟨st, rec, lanes⟩
    simp only at hstate
    subst hstate
    simp [ein]

/-- Claim C9 witness: a concrete in-range run stays out of
`WaitRelease`, and a concrete `Finalizing false` machine on `(3, low)`
goes to `Idle` with the close pulses. -/
theorem inLoop_never_waitRelease_witness :
    ((runFrom InLoop.mkDefault [] [(1, true), (2, true)]).isSome ∧
      ∀ m' ctl',
        runFrom InLoop.mkDefault [] [(1, true), (2, true)] =
          some (m', ctl') →
        m'.state ≠ State.WaitRelease) ∧
    ein { state := State.Finalizing false, recognizer := [],
          lanes := List.replicate 7 false } [] 3 false =
      some ({ state := State.Idle, recognizer := [],
              lanes := List.replicate 7 false }, pulse3 [] 2) :=
  ⟨inLoop_never_waitRelease.1 [(1, true), (2, true)] (by decide),
   inLoop_never_waitRelease.2
     { state := State.Finalizing false, recognizer := [],
       lanes := List.replicate 7 false } [] rfl⟩

/-- Claim C10: `ein` panics (returns `none`) exactly on line indices at
least 7 — the out-of-bounds write to the 7-element `lanes` array
happens before any state matching, so the outcome is independent of the
machine state — and `Laurent.emit_ein`, which forwards any line
unchecked, panics under exactly the same condition; for lines below 7
both always succeed. -/
theorem ein_oob_panic :
    ∀ (m : InLoop) (ctl : LaurentCtl) (line : Nat) (high : Bool)
      (l : Laurent),
      ((ein m ctl line high).isSome = decide (line < 7)) ∧
      ((l.emit_ein line high).isSome = decide (line < 7)) := by
  have key : ∀ (m : InLoop) (ctl : LaurentCtl) (line : Nat) (high : Bool),
      (ein m ctl line high).isSome = decide (line < 7) := by
    intro m ctl line high
    by_cases h : line < 7
    · simp [ein_isSome_of_lt m ctl line high h, h]
    · simp [ein_none_of_ge m ctl line high h, h]
  intro m ctl line high l
  refine ⟨key m ctl line high, ?_⟩
  rw [Laurent.emit_ein]
  rw [Option.isSome_map']
  exact key l.sub l.ctl line high

end Sandbox
